import Mathlib

/-!
Verification of the ShipFlow build-and-deploy pipeline core.

The development shallowly embeds the pipeline orchestration and the bulk
object-storage transfer engine of the repository:

* `src/src/utils/s3Uploader.ts` — upload-direction sync engine
  (`S3DirectoryUploader`: `calculateDirectoryStats`, `uploadDirectory`,
  `processEntry`, `logProgress`) and the submission handler
  (`uploadController` in `src/src/routes/upload.ts`).
* `src/02-Deploy Service/src/aws.ts` — download-direction sync engine
  (`S3DirectoryDownloader`: `calculateS3Stats`, `downloadFromS3`,
  `logProgress`) and the build-output publisher (`uploadDistFolder`).
* the deploy-service worker (`main` and `buildProject`).
* `src/03-Request Service/src/controllers/serve.ts` — the content server.

Paths, object keys and identifiers are embedded as `List Char` (JavaScript
strings are sequences of characters; `slice`, concatenation and
`startsWith` become `List.drop`, `++` and pattern matching on the head).
File contents are embedded as `List Nat` (byte sequences); an object's
listed `Size` / `ContentLength` is the length of its content.  External
effects (subprocess exit codes, clone/transfer outcomes, the Redis queue
and status store) are passed in explicitly as data, and each operation
returns the effects it performs.
-/

/-- Character-list embedding of a JavaScript string (path, key, id). -/
abbrev Str := List Char

/-- Transfer statistics record, mirroring the `UploadStats` / `DownloadStats`
interfaces of both sync engines: `{totalFiles, filesUploaded, totalBytes,
bytesUploaded, startTime, lastLogTime}` (times in milliseconds). -/
structure Stats where
  totalFiles : Nat
  filesDone : Nat
  totalBytes : Nat
  bytesDone : Nat
  startTime : Nat
  lastLogTime : Nat
deriving DecidableEq, Repr

/-- The zeroed statistics record installed by the reset at the start of each
sync call (`this.stats = { totalFiles: 0, ..., startTime: Date.now(),
lastLogTime: Date.now() }`): counters zero, both timestamps set to the
current time. -/
def Stats.reset (now : Nat) : Stats :=
  { totalFiles := 0, filesDone := 0, totalBytes := 0, bytesDone := 0
    startTime := now, lastLogTime := now }

/-- Progress observation emitted by `logProgress` (the fields passed to
`Logger.upload.progress` / the download progress log line). -/
structure ProgressReport where
  filesCompleted : Nat
  totalFiles : Nat
  bytesCompleted : Nat
  totalBytes : Nat
  elapsedMs : Nat
deriving DecidableEq, Repr

/-- Embedding of `logProgress` (identical gating logic in
`S3DirectoryUploader.logProgress` of `src/src/utils/s3Uploader.ts` and
`S3DirectoryDownloader.logProgress` of `src/02-Deploy Service/src/aws.ts`):
emit a progress observation only when `now - stats.lastLogTime >=
logIntervalMs`, and in that case set `stats.lastLogTime = now`.  The guard
`now - lastLogTime >= intervalMs` over JavaScript integers is written here
in the subtraction-free form `lastLogTime + intervalMs <= now`. -/
def logProgress (intervalMs : Nat) (now : Nat) (s : Stats) :
    Option ProgressReport × Stats :=
  if s.lastLogTime + intervalMs ≤ now then
    (some { filesCompleted := s.filesDone, totalFiles := s.totalFiles
            bytesCompleted := s.bytesDone, totalBytes := s.totalBytes
            elapsedMs := now - s.startTime },
     { s with lastLogTime := now })
  else
    (none, s)

/-- Run a burst of `logProgress` calls at the given sequence of clock
readings, collecting the times at which an observation was emitted. -/
def runLog (intervalMs : Nat) (s : Stats) : List Nat → List Nat
  | [] => []
  | t :: ts =>
    match logProgress intervalMs t s with
    | (some _, s') => t :: runLog intervalMs s' ts
    | (none, s') => runLog intervalMs s' ts

/-! ### Deploy-service worker: `buildProject` and the `main` loop
(`src/unnamed/part_004`). -/

/-- External effects observed by one `buildProject` run: whether the
project directory exists (`fs.existsSync(outputDir)`), the build
subprocess exit code (the `close` event code), whether the build produced
the `dist` subdirectory (`fs.existsSync(distDir)`), and the outcome of
`uploadDistFolder`. -/
structure BuildEnv where
  dirExists : Bool
  exitCode : Nat
  distExists : Bool
  uploadResult : Except String Unit

/-- Observable outcome of one `buildProject` run: the `hSet("status", id,
label)` writes performed, in order, and whether the returned promise
resolves or rejects (with the rejection message). -/
structure BuildOutcome where
  statusSet : List (String × String)
  result : Except String Unit

/-- Embedding of `buildProject` in `src/unnamed/part_004`.  Control flow of
the source, in order: reject when the project directory is missing; on
subprocess close with code 0, immediately perform
`publisher.hSet("status", id, "Deployed")`, then check for the `dist`
folder (rejecting if absent), then `await uploadDistFolder` (resolving on
success, rejecting on failure); on a non-zero exit code, reject without
writing any status. -/
def buildProject (id : String) (env : BuildEnv) : BuildOutcome :=
  if env.dirExists = false then
    { statusSet := [], result := .error "Project directory not found" }
  else if env.exitCode = 0 then
    if env.distExists = false then
      { statusSet := [(id, "Deployed")]
        result := .error "Build did not generate a dist folder" }
    else
      match env.uploadResult with
      | .ok _ => { statusSet := [(id, "Deployed")], result := .ok () }
      | .error e => { statusSet := [(id, "Deployed")], result := .error e }
  else
    { statusSet := [], result := .error "Build failed with non-zero exit code" }

/-- Result of the blocking `brPop` on the build queue at the top of the
worker loop: the pop itself may throw, may deliver nothing, or delivers a
job identifier. -/
inductive PopResult where
  | popThrew (e : String)
  | noElement
  | job (id : String)

/-- External effects available to one iteration of the worker loop once a
job identifier is in hand: the outcome of `downloadS3Folder` and the
environment handed to `buildProject`. -/
structure JobEnv where
  downloadResult : Except String Unit
  build : BuildEnv

/-- Observable outcome of one iteration of the worker `main` loop: the
error logged by the `catch` block (if any), the delay before the next
iteration, and whether the loop proceeds to the next iteration. -/
structure IterOutcome where
  caught : Option String
  sleepMs : Nat
  continues : Bool

/-- Embedding of one iteration of the `while (1)` loop in `main` of
`src/unnamed/part_004`: `brPop` the queue; on an element, `await
downloadS3Folder` then `await buildProject`; any error thrown anywhere in
the `try` body is caught, logged, and followed by a 5000 ms sleep; the
loop always continues. -/
def loopIter (pop : PopResult) (env : JobEnv) : IterOutcome :=
  match pop with
  | .popThrew e => { caught := some e, sleepMs := 5000, continues := true }
  | .noElement => { caught := none, sleepMs := 0, continues := true }
  | .job id =>
    match env.downloadResult with
    | .error e => { caught := some e, sleepMs := 5000, continues := true }
    | .ok _ =>
      match (buildProject id env.build).result with
      | .error e => { caught := some e, sleepMs := 5000, continues := true }
      | .ok _ => { caught := none, sleepMs := 0, continues := true }

/-! ### Job submission handler (`uploadController` in
`src/src/routes/upload.ts`). -/

/-- External effects of one submission: the outcome of the `simpleGit`
clone, the outcome of `s3Uploader.uploadDirectory`, the outcome of the
(un-awaited) `publisher.lPush`, and the measured elapsed time. -/
structure SubmitEnv where
  cloneResult : Except String Unit
  uploadResult : Except String Unit
  pushResult : Except String Unit
  durationMs : Nat

/-- HTTP response produced by the submission handler: `res.json({id,
processingTimeMs})` on success, or `res.status(500).json({error, message,
processingTimeMs})` on failure. -/
inductive HttpResponse where
  | success (id : String) (processingTimeMs : Nat)
  | failure (error : String) (message : String) (processingTimeMs : Nat)
deriving DecidableEq, Repr

/-- Observable outcome of one `uploadController` run: the values pushed
onto the `build-queue` list, in order, and the HTTP response sent. -/
structure SubmitOutcome where
  pushes : List String
  response : HttpResponse

/-- Embedding of `uploadController` in `src/src/routes/upload.ts`: clone
the repository (a clone error is rethrown and caught by the outer
`catch`, which sends the 500 response); upload the cloned tree under the
generated identifier (an upload error likewise reaches the outer
`catch`); then call `publisher.lPush("build-queue", id)` — without
awaiting it — and send the success response.  The push outcome therefore
never influences the response. -/
def uploadController (id : String) (env : SubmitEnv) : SubmitOutcome :=
  match env.cloneResult with
  | .error e =>
    { pushes := []
      response := .failure "Failed to process the upload" e env.durationMs }
  | .ok _ =>
    match env.uploadResult with
    | .error e =>
      { pushes := []
        response := .failure "Failed to process the upload" e env.durationMs }
    | .ok _ =>
      { pushes := [id], response := .success id env.durationMs }

/-! ### Local directory trees.

A local directory is a list of entries (the result of `readdir(dir,
{withFileTypes: true})`, in directory order); each entry is a file with a
name and byte content, or a subdirectory with a name and its own entries.
The two types are mutually inductive so that all definitions below are
structurally recursive. -/

mutual
/-- One directory entry: a file (name, bytes) or a subdirectory. -/
inductive FTree where
  | file (name : Str) (content : List Nat)
  | dir (name : Str) (children : Forest)
/-- A list of directory entries, in `readdir` order. -/
inductive Forest where
  | nil
  | cons (head : FTree) (tail : Forest)
end

/-- Convert a `Forest` to the underlying list of entries. -/
def Forest.toList : Forest → List FTree
  | .nil => []
  | .cons t r => t :: r.toList

/-- Whether an entry is a file (the `entry.isDirectory()` test, negated). -/
def FTree.isFile : FTree → Bool
  | .file _ _ => true
  | .dir _ _ => false

mutual
/-- Well-formedness of entry names as produced by a real filesystem:
`readdir` never returns an empty name or a name containing the path
separator. -/
def FTree.wfNames : FTree → Bool
  | .file n _ => !n.isEmpty && !n.contains '/'
  | .dir n cs => !n.isEmpty && !n.contains '/' && cs.wfNames
def Forest.wfNames : Forest → Bool
  | .nil => true
  | .cons t r => t.wfNames && r.wfNames
end

mutual
/-- Specification-side enumeration of a tree's files: every file under the
tree, as a pair of its `'/'`-joined relative path and its content, in
depth-first `readdir` order.  This is the reference ("true") description
of a source tree that the engine definitions below are compared with. -/
def FTree.entryFiles : FTree → List (Str × List Nat)
  | .file n c => [(n, c)]
  | .dir n cs => cs.fileEntries.map (fun q => (n ++ '/' :: q.1, q.2))
/-- All files of a forest with their relative paths, depth first. -/
def Forest.fileEntries : Forest → List (Str × List Nat)
  | .nil => []
  | .cons t r => t.entryFiles ++ r.fileEntries
end

/-! ### Upload-direction sync engine (`S3DirectoryUploader` in
`src/src/utils/s3Uploader.ts`). -/

/-- Destination-key construction of `uploadDirectory`:
`` const entryS3Key = s3Prefix ? `${s3Prefix}/${entry.name}` : entry.name ``
(an empty prefix string is falsy, so the name alone is used). -/
def entryKey (s3Pre : Str) (name : Str) : Str :=
  if s3Pre = [] then name else s3Pre ++ '/' :: name

mutual
/-- Objects put by `uploadDirectory(dirPath, s3Prefix)` for one entry of
the directory: a file entry is uploaded to `entryKey s3Pre name`
(`uploadFile`); a directory entry recurses with the entry key as the new
prefix (`this.uploadDirectory(entryPath, entryS3Key)`). -/
def FTree.uploadEntry (s3Pre : Str) : FTree → List (Str × List Nat)
  | .file n c => [(entryKey s3Pre n, c)]
  | .dir n cs => cs.uploadObjects (entryKey s3Pre n)
/-- All objects put by `uploadDirectory` over a directory's entries, in
entry order. -/
def Forest.uploadObjects (s3Pre : Str) : Forest → List (Str × List Nat)
  | .nil => []
  | .cons t r => t.uploadEntry s3Pre ++ r.uploadObjects s3Pre
end

mutual
/-- Embedding of `calculateDirectoryStats` of `S3DirectoryUploader`
applied to one entry: a directory entry recurses; a file entry increments
`totalFiles` and adds the file's size to `totalBytes`.  Note the source
counts every file, including zero-byte files. -/
def FTree.calcEntryStats : FTree → Stats → Stats
  | .file _ c, s =>
    { s with totalFiles := s.totalFiles + 1, totalBytes := s.totalBytes + c.length }
  | .dir _ cs, s => cs.calcDirStats s
/-- Embedding of `calculateDirectoryStats` over a directory's entries:
fold over the entries in `readdir` order. -/
def Forest.calcDirStats : Forest → Stats → Stats
  | .nil, s => s
  | .cons t r, s => r.calcDirStats (t.calcEntryStats s)
end

/-! ### Download-direction sync engine (`S3DirectoryDownloader` in
`src/02-Deploy Service/src/aws.ts`).

The object store is a list of `(key, content)` pairs; a paginated
`listObjectsV2` walk of a key prefix is a list of pages, each page a list
of `(key, content)` pairs whose listed `Size` is the content length. -/

/-- One listed object: its key and its bytes (`Size`/`ContentLength` is
the length of `content`). -/
abbrev S3Obj := Str × List Nat

/-- Embedding of the per-page body of `calculateS3Stats`: for each object
of the page, `if (obj.Size && obj.Size > 0)` — zero-size objects are
skipped with the comment "Skip directories (0-byte objects)" — increment
`totalFiles` and add `obj.Size` to `totalBytes`. -/
def statsPage (page : List S3Obj) (s : Stats) : Stats :=
  page.foldl
    (fun s o =>
      if 0 < o.2.length then
        { s with totalFiles := s.totalFiles + 1, totalBytes := s.totalBytes + o.2.length }
      else s) s

/-- Embedding of `calculateS3Stats`: follow continuation tokens page by
page until the listing is no longer truncated, accumulating `statsPage`
over every page. -/
def calcS3Stats (pages : List (List S3Obj)) (s : Stats) : Stats :=
  pages.foldl (fun s page => statsPage page s) s

/-- Relative-path computation of the download loop in `downloadFromS3`:
`const relativePath = obj.Key.slice(s3Prefix.length)` followed by
stripping one leading slash
(`relativePath.startsWith('/') ? relativePath.slice(1) : relativePath`). -/
def cleanRelPath (s3Pre : Str) (key : Str) : Str :=
  let rel := key.drop s3Pre.length
  match rel with
  | '/' :: rest => rest
  | _ => rel

/-- Local files written by the transfer pass of `downloadFromS3` for one
listing page: each object passing `if (obj.Key && obj.Size && obj.Size >
0)` (non-empty key and positive size) is streamed byte-for-byte to
`path.join(localDir, cleanRelativePath)`.  The result pairs each written
relative path with the bytes written. -/
def pageWrites (s3Pre : Str) (page : List S3Obj) : List (Str × List Nat) :=
  page.filterMap
    (fun o =>
      if o.1 ≠ [] ∧ 0 < o.2.length then some (cleanRelPath s3Pre o.1, o.2)
      else none)

/-- All local files written by `downloadFromS3` across every listing page,
in listing order. -/
def downloadWrites (s3Pre : Str) (pages : List (List S3Obj)) : List (Str × List Nat) :=
  (pages.map (pageWrites s3Pre)).flatten

/-- Model of one `listObjectsV2` page over a key prefix: the objects of
the store whose key extends the prefix, in store order. -/
def listPre (store : List S3Obj) (s3Pre : Str) : List S3Obj :=
  store.filter (fun o => s3Pre.isPrefixOf o.1)

/-! ### Build-output publisher (`uploadDistFolder` and the deploy-service
`S3DirectoryUploader` in `src/02-Deploy Service/src/aws.ts`) and the
content server (`serveFileController` in
`src/03-Request Service/src/controllers/serve.ts`). -/

/-- Node `path.join(relativePath, entry.name)` as used by
`processDirectory`, starting from the empty relative path: joining with
the empty left operand yields the right operand, otherwise the two are
joined with a single separator.  (Well-formed entry names contain no
separator and are not `..`, so no normalization applies.) -/
def pathJoin (a b : Str) : Str :=
  if a = [] then b else a ++ '/' :: b

/-- Node `path.posix.join(s3Prefix, entryRelPath)` as used to build the
destination key (the trailing `.replace(/\\/g, '/')` is the identity on
keys without backslashes). -/
def posixJoin (a b : Str) : Str :=
  if a = [] then b
  else if b = [] then a
  else a ++ '/' :: b

/-- Destination prefix chosen by `uploadDistFolder`:
`` deploymentId ? `deployments/${id}/${deploymentId}` : `deployments/${id}` ``
(a missing or empty deployment identifier is falsy). -/
def distFolderPre (id : Str) (deploymentId : Str) : Str :=
  if deploymentId = [] then "deployments/".toList ++ id
  else "deployments/".toList ++ id ++ '/' :: deploymentId

mutual
/-- Keys put by the deploy-service uploader's `processDirectory(dir,
relativePath)` for one entry: a directory entry recurses with
`path.join(relativePath, entry.name)`; a file entry is uploaded to
`path.posix.join(s3Prefix, entryRelPath)`. -/
def FTree.distEntryKeys (s3Pre : Str) (rel : Str) : FTree → List Str
  | .file n _ => [posixJoin s3Pre (pathJoin rel n)]
  | .dir n cs => cs.distKeys s3Pre (pathJoin rel n)
/-- All keys put by `processDirectory` over a directory's entries. -/
def Forest.distKeys (s3Pre : Str) (rel : Str) : Forest → List Str
  | .nil => []
  | .cons t r => t.distEntryKeys s3Pre rel ++ r.distKeys s3Pre rel
end

/-- All keys put by `uploadDistFolder(id, deploymentId)`: the dist
folder's entries uploaded under the deployment prefix, starting from the
empty relative path. -/
def uploadDistFolderKeys (id : Str) (deploymentId : Str) (distEntries : Forest) : List Str :=
  distEntries.distKeys (distFolderPre id deploymentId) []

/-- Object key fetched by `serveFileController`:
`` Key: `dist/${id}${filePath}` `` where `id` is the first hostname label
and `filePath` is the request path. -/
def serveKey (id : Str) (filePath : Str) : Str :=
  "dist/".toList ++ id ++ filePath

/-- One character list is a leading segment of another. -/
def hasPre (p k : Str) : Prop := ∃ t, k = p ++ t

/-! ### Concurrency structure of `uploadDirectory`
(`src/src/utils/s3Uploader.ts`, lines 200–237).

After the statistics pass, `uploadDirectory` reads the directory's
entries and starts `Math.min(concurrencyLimit, entries.length)` chains
(`concurrencyLimit = 5`); the chain started at index `i` processes
entries `i, i+5, i+10, …` sequentially (`processEntry` calls
`processEntry(index + concurrencyLimit)` in its `finally` block).  A
chain whose current entry is a file has one `uploadFile` transfer in
flight; a chain whose current entry is a directory runs a full recursive
`uploadDirectory` with its own five chains.  The state machine below
records, for each `uploadDirectory` invocation, the state of its five
chain slots (a slot beyond the entry count is immediately finished). -/

/-- Entries assigned to chain `i` of one `uploadDirectory` call: the
entries at indices `i, i+5, i+10, …`, i.e. at indices congruent to `i`
modulo the concurrency limit 5. -/
def chainEntries (entries : List FTree) (i : Nat) : List FTree :=
  (entries.enum.filter (fun q => q.1 % 5 == i)).map (fun q => q.2)

mutual
/-- State of one `uploadDirectory` invocation: its five chain slots. -/
inductive SyncSt where
  | mk (s0 s1 s2 s3 s4 : ChainSt)
/-- State of one chain: finished; `processEntry` invoked on an entry whose
transfer work has not started yet; a file transfer in flight; or a
recursive `uploadDirectory` for a directory entry in progress.  `rest`
holds the chain's remaining entries. -/
inductive ChainSt where
  | fin
  | pend (e : FTree) (rest : List FTree)
  | xfer (rest : List FTree)
  | sub (s : SyncSt) (rest : List FTree)
end

/-- Chain state for a list of pending entries: an empty list means the
chain is finished, otherwise `processEntry` runs on the head with the
tail remaining. -/
def chainFrom : List FTree → ChainSt
  | [] => .fin
  | e :: r => .pend e r

/-- Initial state of an `uploadDirectory` call over the given entries:
chain `i` starts at the entries congruent to `i` modulo 5. -/
def initSync (entries : List FTree) : SyncSt :=
  .mk (chainFrom (chainEntries entries 0)) (chainFrom (chainEntries entries 1))
      (chainFrom (chainEntries entries 2)) (chainFrom (chainEntries entries 3))
      (chainFrom (chainEntries entries 4))

/-- Whether a chain slot is finished. -/
def ChainSt.isFin : ChainSt → Bool
  | .fin => true
  | _ => false

/-- Whether an `uploadDirectory` invocation has completed (its
`Promise.all(initialPromises)` has resolved): all five chains finished. -/
def SyncSt.allFin : SyncSt → Bool
  | .mk a b c d e => a.isFin && b.isFin && c.isFin && d.isFin && e.isFin

mutual
/-- Number of file transfers currently in flight in a chain. -/
def ChainSt.inFlight : ChainSt → Nat
  | .fin => 0
  | .pend _ _ => 0
  | .xfer _ => 1
  | .sub s _ => s.inFlight
/-- Number of file transfers currently in flight across a whole
`uploadDirectory` invocation, nested recursions included. -/
def SyncSt.inFlight : SyncSt → Nat
  | .mk a b c d e => a.inFlight + b.inFlight + c.inFlight + d.inFlight + e.inFlight
end

mutual
/-- One atomic step of a chain: dispatch a pending file entry (its
`uploadFile` transfer begins); dispatch a pending directory entry (the
recursive `uploadDirectory` begins, its own chains created over the
subdirectory's entries); a file transfer completes and the `finally`
block moves the chain to its next entry; a step inside a recursive
invocation; or a completed recursive invocation lets the chain move on. -/
inductive ChainStep : ChainSt → ChainSt → Prop where
  | startFile (n : Str) (c : List Nat) (rest : List FTree) :
      ChainStep (.pend (.file n c) rest) (.xfer rest)
  | startDir (n : Str) (cs : Forest) (rest : List FTree) :
      ChainStep (.pend (.dir n cs) rest) (.sub (initSync cs.toList) rest)
  | finishFile (rest : List FTree) :
      ChainStep (.xfer rest) (chainFrom rest)
  | subStep (s s' : SyncSt) (rest : List FTree) :
      SyncStep s s' → ChainStep (.sub s rest) (.sub s' rest)
  | subFin (s : SyncSt) (rest : List FTree) :
      s.allFin = true → ChainStep (.sub s rest) (chainFrom rest)
/-- One atomic step of an `uploadDirectory` invocation: some chain steps. -/
inductive SyncStep : SyncSt → SyncSt → Prop where
  | at0 {a a' b c d e} : ChainStep a a' → SyncStep (.mk a b c d e) (.mk a' b c d e)
  | at1 {a b b' c d e} : ChainStep b b' → SyncStep (.mk a b c d e) (.mk a b' c d e)
  | at2 {a b c c' d e} : ChainStep c c' → SyncStep (.mk a b c d e) (.mk a b c' d e)
  | at3 {a b c d d' e} : ChainStep d d' → SyncStep (.mk a b c d e) (.mk a b c d' e)
  | at4 {a b c d e e'} : ChainStep e e' → SyncStep (.mk a b c d e) (.mk a b c d e')
end

/-- Reachability of one `uploadDirectory` state from another by any
interleaving of steps. -/
def SyncReach : SyncSt → SyncSt → Prop := Relation.ReflTransGen SyncStep

/-! ### Failure behavior of one chain (`processEntry`,
`src/src/utils/s3Uploader.ts` lines 207–228).

`processEntry` awaits the entry's transfer inside `try`, and its
`finally` block — which runs whether or not that transfer threw — awaits
`processEntry(index + concurrencyLimit)`, the rest of the chain.  A
rejection from the `finally` block replaces the original rejection, so
the chain's rejection is the error of its **last** failing entry, and
every entry of the chain is attempted regardless of earlier failures.
The transfer outcome of each entry (the `uploadFile` call, or the whole
recursive `uploadDirectory` for a directory entry) is supplied by the
`outcome` oracle. -/

/-- Run one chain over its entries: returns the entries whose transfer
was attempted (in order) and the chain's overall promise result under the
JavaScript `try`/`finally` semantics described above. -/
def runChain (outcome : FTree → Except String Unit) :
    List FTree → List FTree × Except String Unit
  | [] => ([], .ok ())
  | e :: rest =>
    let r := outcome e
    let rec' := runChain outcome rest
    (e :: rec'.1,
      match rec'.2 with
      | .error msg => .error msg
      | .ok _ => r)

/-- Whether an `Except` is an error. -/
def isErr : Except String Unit → Bool
  | .error _ => true
  | .ok _ => false

/-! ## Claims -/

/-- C1: the claim states that the success Status Record is written only
after the build subprocess exited 0, the `dist` subdirectory was verified
to exist, and the publish succeeded, and that no success record is
written when the subdirectory is missing or the publish fails.  The code
violates this: `buildProject` performs `publisher.hSet("status", id,
"Deployed")` immediately on exit code 0, before the `dist` check and
before `uploadDistFolder`.  Evaluated at the failing inputs: with the
`dist` folder missing, and with a failing publish, the status write
`("abc123", "Deployed")` is performed even though the job's promise
rejects. -/
theorem c1_status_written_despite_failed_deploy :
    (buildProject "abc123"
      { dirExists := true, exitCode := 0, distExists := false,
        uploadResult := .ok () }).statusSet = [("abc123", "Deployed")] ∧
    isErr (buildProject "abc123"
      { dirExists := true, exitCode := 0, distExists := false,
        uploadResult := .ok () }).result = true ∧
    (buildProject "abc123"
      { dirExists := true, exitCode := 0, distExists := true,
        uploadResult := .error "S3 access denied" }).statusSet
      = [("abc123", "Deployed")] ∧
    isErr (buildProject "abc123"
      { dirExists := true, exitCode := 0, distExists := true,
        uploadResult := .error "S3 access denied" }).result = true :=
  ⟨rfl, rfl, rfl, rfl⟩

/-- Submission environment in which clone and upload succeed but the
un-awaited queue push fails. -/
def c6Env : SubmitEnv :=
  { cloneResult := .ok (), uploadResult := .ok ()
    pushResult := .error "redis connection lost", durationMs := 42 }

/-- C6 counterexample: the claim states that if any submission step fails
— including the queue push — the underlying cause surfaces to the caller
as a structured failure response rather than a success response.  But
`uploadController` calls `publisher.lPush` without awaiting it, so a
failing push still yields the success response: below, the push outcome
is an error, yet the response is `success` and the identifier was pushed
(fire-and-forget). -/
theorem c6_counterexample :
    c6Env.pushResult = .error "redis connection lost" ∧
    (uploadController "job-1" c6Env).response = .success "job-1" 42 ∧
    (uploadController "job-1" c6Env).pushes = ["job-1"] :=
  ⟨rfl, rfl, rfl⟩

/-- C6 amended: a clone failure or an upload failure surfaces as the
structured 500 failure response carrying the underlying message, with
nothing pushed; when clone and upload succeed, the identifier is pushed
exactly once and the success response returns the identifier with the
elapsed time — regardless of the queue push's own outcome, which is
never awaited. -/
theorem c6_submit_amended (id : String) (env : SubmitEnv) :
    (∀ e, env.cloneResult = .error e →
      uploadController id env =
        { pushes := []
          response := .failure "Failed to process the upload" e env.durationMs }) ∧
    (∀ e, env.cloneResult = .ok () → env.uploadResult = .error e →
      uploadController id env =
        { pushes := []
          response := .failure "Failed to process the upload" e env.durationMs }) ∧
    (env.cloneResult = .ok () → env.uploadResult = .ok () →
      uploadController id env =
        { pushes := [id], response := .success id env.durationMs }) := by
  refine ⟨?_, ?_, ?_⟩
  · intro e h
    simp [uploadController, h]
  · intro e h1 h2
    simp [uploadController, h1, h2]
  · intro h1 h2
    simp [uploadController, h1, h2]

/-- Witness for the amended C6 theorem at a concrete successful
submission. -/
theorem c6_submit_amended_witness :
    uploadController "w"
      { cloneResult := .ok (), uploadResult := .ok ()
        pushResult := .ok (), durationMs := 7 }
      = { pushes := ["w"], response := .success "w" 7 } :=
  (c6_submit_amended "w"
    { cloneResult := .ok (), uploadResult := .ok ()
      pushResult := .ok (), durationMs := 7 }).2.2 rfl rfl

/-- C7: every iteration of the worker loop continues (the loop never
terminates on a per-job error); whenever an error was caught the
iteration sleeps the fixed 5000 ms; and each error source — a throwing
queue pop, a failing download, a failing build — is caught and logged
rather than escaping the loop. -/
theorem c7_loop_survives_errors (pop : PopResult) (env : JobEnv) :
    (loopIter pop env).continues = true ∧
    ((loopIter pop env).caught.isSome = true → (loopIter pop env).sleepMs = 5000) ∧
    (∀ e, pop = .popThrew e → (loopIter pop env).caught = some e) ∧
    (∀ id e, pop = .job id → env.downloadResult = .error e →
      (loopIter pop env).caught = some e) ∧
    (∀ id e, pop = .job id → env.downloadResult = .ok () →
      (buildProject id env.build).result = .error e →
      (loopIter pop env).caught = some e) := by
  refine ⟨?_, ?_, ?_, ?_, ?_⟩
  · cases pop with
    | popThrew e => rfl
    | noElement => rfl
    | job id =>
      cases h : env.downloadResult with
      | error e => simp [loopIter, h]
      | ok u =>
        cases h2 : (buildProject id env.build).result with
        | error e => simp [loopIter, h, h2]
        | ok u => simp [loopIter, h, h2]
  · cases pop with
    | popThrew e => intro _; rfl
    | noElement => intro h; simp [loopIter] at h
    | job id =>
      cases h : env.downloadResult with
      | error e => intro _; simp [loopIter, h]
      | ok u =>
        cases h2 : (buildProject id env.build).result with
        | error e => intro _; simp [loopIter, h, h2]
        | ok u => intro hc; simp [loopIter, h, h2] at hc
  · intro e he
    subst he
    rfl
  · intro id e hp hd
    subst hp
    simp [loopIter, hd]
  · intro id e hp hd hb
    subst hp
    simp [loopIter, hd, hb]

/-- Witness for C7 at a concrete failing job: the download fails, the
error is caught, the loop sleeps 5000 ms and continues. -/
theorem c7_loop_survives_errors_witness :
    (loopIter (.job "abc123")
      { downloadResult := .error "download failed"
        build := { dirExists := true, exitCode := 0, distExists := true,
                   uploadResult := .ok () } }).caught = some "download failed" :=
  (c7_loop_survives_errors (.job "abc123")
    { downloadResult := .error "download failed"
      build := { dirExists := true, exitCode := 0, distExists := true,
                 uploadResult := .ok () } }).2.2.2.1 "abc123" "download failed" rfl rfl

/-- C8: the progress reporter emits an observation only if at least the
configured interval has elapsed since the last emission (initially, since
the start of the sync call), and an emission updates the last-emission
timestamp to the current time; consequently, over any burst of
completion-triggered `logProgress` calls, consecutive emission times are
at least one interval apart — at most one observation per interval. -/
theorem c8_progress_throttled (intervalMs : Nat) (s : Stats) :
    (∀ now r s', logProgress intervalMs now s = (some r, s') →
      s.lastLogTime + intervalMs ≤ now ∧ s'.lastLogTime = now) ∧
    (∀ ts, List.Chain (fun a b => a + intervalMs ≤ b) s.lastLogTime
      (runLog intervalMs s ts)) := by
  constructor
  · intro now r s' h
    by_cases hc : s.lastLogTime + intervalMs ≤ now
    · refine ⟨hc, ?_⟩
      simp only [logProgress, if_pos hc] at h
      cases h
      rfl
    · simp only [logProgress, if_neg hc] at h
      cases h
  · intro ts
    induction ts generalizing s with
    | nil => exact List.Chain.nil
    | cons t ts ih =>
      by_cases hc : s.lastLogTime + intervalMs ≤ t
      · have hrun : runLog intervalMs s (t :: ts)
            = t :: runLog intervalMs { s with lastLogTime := t } ts := by
          simp [runLog, logProgress, hc]
        rw [hrun]
        exact List.Chain.cons hc (ih { s with lastLogTime := t })
      · have hrun : runLog intervalMs s (t :: ts) = runLog intervalMs s ts := by
          simp [runLog, logProgress, hc]
        rw [hrun]
        exact ih s

/-- Witness for C8: a concrete emission at time 2000 with interval 2000
from a tracker reset at time 0. -/
theorem c8_progress_throttled_witness :
    (Stats.reset 0).lastLogTime + 2000 ≤ 2000 ∧
    ({ Stats.reset 0 with lastLogTime := 2000 } : Stats).lastLogTime = 2000 :=
  (c8_progress_throttled 2000 (Stats.reset 0)).1 2000
    { filesCompleted := 0, totalFiles := 0, bytesCompleted := 0
      totalBytes := 0, elapsedMs := 2000 }
    { Stats.reset 0 with lastLogTime := 2000 } rfl

mutual
/-- The statistics pass over one entry adds exactly the entry's true file
count and true byte size to the tracker. -/
theorem FTree.calcEntryStats_totals (t : FTree) (s : Stats) :
    (t.calcEntryStats s).totalFiles = s.totalFiles + t.entryFiles.length ∧
    (t.calcEntryStats s).totalBytes
      = s.totalBytes + (t.entryFiles.map (fun q => q.2.length)).sum := by
  cases t with
  | file n c => simp [FTree.calcEntryStats, FTree.entryFiles]
  | dir n cs =>
    have h := Forest.calcDirStats_totals cs s
    simpa [FTree.calcEntryStats, FTree.entryFiles, List.map_map, Function.comp] using h
/-- The statistics pass over a directory's entries adds exactly the true
file count and true byte size of the whole subtree to the tracker. -/
theorem Forest.calcDirStats_totals (f : Forest) (s : Stats) :
    (f.calcDirStats s).totalFiles = s.totalFiles + f.fileEntries.length ∧
    (f.calcDirStats s).totalBytes
      = s.totalBytes + (f.fileEntries.map (fun q => q.2.length)).sum := by
  cases f with
  | nil => simp [Forest.calcDirStats, Forest.fileEntries]
  | cons t r =>
    have h1 := FTree.calcEntryStats_totals t s
    have h2 := Forest.calcDirStats_totals r (t.calcEntryStats s)
    constructor
    · rw [Forest.calcDirStats, h2.1, h1.1]
      simp [Forest.fileEntries]
      omega
    · rw [Forest.calcDirStats, h2.2, h1.2]
      simp [Forest.fileEntries]
      omega
end

/-- The per-page statistics fold counts exactly the positive-size objects
of the page and sums exactly their sizes. -/
theorem statsPage_totals (page : List S3Obj) (s : Stats) :
    (statsPage page s).totalFiles
      = s.totalFiles + (page.filter (fun o => 0 < o.2.length)).length ∧
    (statsPage page s).totalBytes
      = s.totalBytes
        + ((page.filter (fun o => 0 < o.2.length)).map (fun o => o.2.length)).sum := by
  induction page generalizing s with
  | nil => simp [statsPage]
  | cons o rest ih =>
    by_cases h : 0 < o.2.length
    · have := ih { s with totalFiles := s.totalFiles + 1
                          totalBytes := s.totalBytes + o.2.length }
      constructor
      · simp only [statsPage, List.foldl_cons, if_pos h] at this ⊢
        rw [this.1]
        simp [List.filter_cons, h]
        omega
      · simp only [statsPage, List.foldl_cons, if_pos h] at this ⊢
        rw [this.2]
        simp [List.filter_cons, h]
        omega
    · have := ih s
      constructor
      · simp only [statsPage, List.foldl_cons, if_neg h] at this ⊢
        rw [this.1]
        simp [List.filter_cons, h]
      · simp only [statsPage, List.foldl_cons, if_neg h] at this ⊢
        rw [this.2]
        simp [List.filter_cons, h]

/-- The paginated statistics pass counts exactly the positive-size objects
across all pages and sums exactly their sizes. -/
theorem calcS3Stats_totals (pages : List (List S3Obj)) (s : Stats) :
    (calcS3Stats pages s).totalFiles
      = s.totalFiles + (pages.flatten.filter (fun o => 0 < o.2.length)).length ∧
    (calcS3Stats pages s).totalBytes
      = s.totalBytes
        + ((pages.flatten.filter (fun o => 0 < o.2.length)).map
            (fun o => o.2.length)).sum := by
  induction pages generalizing s with
  | nil => simp [calcS3Stats]
  | cons page rest ih =>
    have h1 := statsPage_totals page s
    have h2 := ih (statsPage page s)
    constructor
    · simp only [calcS3Stats, List.foldl_cons] at h2 ⊢
      rw [h2.1, h1.1]
      simp [List.filter_append]
      omega
    · simp only [calcS3Stats, List.foldl_cons] at h2 ⊢
      rw [h2.2, h1.2]
      simp [List.filter_append]
      omega

/-- Object-storage prefix content holding a single ordinary empty file,
as produced by uploading a tree containing `e` (a zero-byte file) — the
upload engine uploads zero-byte files like any other file. -/
def emptyFileTree : Forest := .cons (.file ['e'] []) .nil

/-- C5 counterexample: the claim states the tracker totals equal the true
file count of the source with only directory-placeholder zero-byte
entries excluded.  But `calculateS3Stats` skips every zero-size object.
For the prefix `"id"` holding exactly the uploaded tree with the single
ordinary empty file `"e"` (a real file, not a placeholder — the upload
engine creates no placeholder objects), the statistics pass reports 0
files although the source holds 1. -/
theorem c5_counterexample :
    (calcS3Stats [listPre (emptyFileTree.uploadObjects ['i', 'd']) ['i', 'd']]
      (Stats.reset 0)).totalFiles = 0 ∧
    emptyFileTree.fileEntries.length = 1 :=
  ⟨rfl, rfl⟩

/-- C5 amended: after the statistics pass, the tracker totals are exact
for the upload direction (every file counted, independent of nesting
depth); for the download direction they equal the count and byte size of
the positive-size listed objects — all zero-size objects are excluded,
directory placeholders and ordinary empty files alike — and therefore
equal the true count and size whenever every listed object has positive
size. -/
theorem c5_stats_amended :
    (∀ (f : Forest) (now : Nat),
      (f.calcDirStats (Stats.reset now)).totalFiles = f.fileEntries.length ∧
      (f.calcDirStats (Stats.reset now)).totalBytes
        = (f.fileEntries.map (fun q => q.2.length)).sum) ∧
    (∀ (pages : List (List S3Obj)) (now : Nat),
      (calcS3Stats pages (Stats.reset now)).totalFiles
        = (pages.flatten.filter (fun o => 0 < o.2.length)).length ∧
      (calcS3Stats pages (Stats.reset now)).totalBytes
        = ((pages.flatten.filter (fun o => 0 < o.2.length)).map
            (fun o => o.2.length)).sum) ∧
    (∀ (pages : List (List S3Obj)) (now : Nat),
      (∀ o ∈ pages.flatten, 0 < o.2.length) →
      (calcS3Stats pages (Stats.reset now)).totalFiles = pages.flatten.length ∧
      (calcS3Stats pages (Stats.reset now)).totalBytes
        = (pages.flatten.map (fun o => o.2.length)).sum) := by
  refine ⟨?_, ?_, ?_⟩
  · intro f now
    have h := Forest.calcDirStats_totals f (Stats.reset now)
    simpa [Stats.reset] using h
  · intro pages now
    have h := calcS3Stats_totals pages (Stats.reset now)
    simpa [Stats.reset] using h
  · intro pages now hpos
    have h := calcS3Stats_totals pages (Stats.reset now)
    have hf : pages.flatten.filter (fun o => 0 < o.2.length) = pages.flatten :=
      List.filter_eq_self.mpr (fun o ho => by simpa using hpos o ho)
    rw [hf] at h
    simpa [Stats.reset] using h

/-- Witness for the amended C5 theorem at a concrete two-page listing
containing a positive-size object and a zero-size placeholder. -/
theorem c5_stats_amended_witness :
    (calcS3Stats [[(['a'], [3, 4])], [(['b', '/'], [])]] (Stats.reset 9)).totalFiles = 1 ∧
    (calcS3Stats [[(['a'], [3, 4])], [(['b', '/'], [])]] (Stats.reset 9)).totalBytes = 2 :=
  c5_stats_amended.2.1 [[(['a'], [3, 4])], [(['b', '/'], [])]] 9

/-- Uploading a directory then listing its prefix flattened into one page:
zero-size objects can be removed from every page without changing either
engine pass — first, removing them page by page commutes with
flattening. -/
theorem flatten_map_filter_pos (pages : List (List S3Obj)) :
    (pages.map (fun page => page.filter (fun o => 0 < o.2.length))).flatten
      = pages.flatten.filter (fun o => 0 < o.2.length) := by
  induction pages with
  | nil => rfl
  | cons page rest ih =>
    simp only [List.map_cons, List.flatten_cons, List.filter_append, ih]

/-- Removing the zero-size objects of a page does not change the files the
transfer pass writes for that page. -/
theorem pageWrites_filter_pos (s3Pre : Str) (page : List S3Obj) :
    pageWrites s3Pre (page.filter (fun o => 0 < o.2.length)) = pageWrites s3Pre page := by
  induction page with
  | nil => rfl
  | cons o rest ih =>
    by_cases h : 0 < o.2.length
    · rw [List.filter_cons_of_pos (by simpa using h)]
      simp only [pageWrites, List.filterMap_cons] at ih ⊢
      rw [ih]
    · rw [List.filter_cons_of_neg (by simpa using h)]
      have hfo : (if o.1 ≠ [] ∧ 0 < o.2.length
          then some (cleanRelPath s3Pre o.1, o.2) else none) = none := by
        rw [if_neg]
        exact fun hc => h hc.2
      simp only [pageWrites, List.filterMap_cons] at ih ⊢
      rw [hfo, ih]

/-- C9: zero-size listed objects are invisible to the download-direction
sync: removing them from every listing page changes neither the
statistics totals nor the set of local files written, and every local
file actually written comes from a positive-size object — no local file
is ever created for a zero-byte object, be it a directory placeholder or
an ordinary empty file. -/
theorem c9_zero_size_objects_skipped (s3Pre : Str) (pages : List (List S3Obj)) (s : Stats) :
    downloadWrites s3Pre (pages.map (fun page => page.filter (fun o => 0 < o.2.length)))
      = downloadWrites s3Pre pages ∧
    (calcS3Stats (pages.map (fun page => page.filter (fun o => 0 < o.2.length))) s).totalFiles
      = (calcS3Stats pages s).totalFiles ∧
    (calcS3Stats (pages.map (fun page => page.filter (fun o => 0 < o.2.length))) s).totalBytes
      = (calcS3Stats pages s).totalBytes ∧
    (∀ w ∈ downloadWrites s3Pre pages, 0 < w.2.length) := by
  refine ⟨?_, ?_, ?_, ?_⟩
  · simp only [downloadWrites, List.map_map]
    congr 1
    apply List.map_congr_left
    intro page _
    exact pageWrites_filter_pos s3Pre page
  · rw [(calcS3Stats_totals _ s).1, (calcS3Stats_totals _ s).1, flatten_map_filter_pos]
    simp only [List.filter_filter, Bool.and_self]
  · rw [(calcS3Stats_totals _ s).2, (calcS3Stats_totals _ s).2, flatten_map_filter_pos]
    simp only [List.filter_filter, Bool.and_self]
  · intro w hw
    simp only [downloadWrites, List.mem_flatten, List.mem_map] at hw
    obtain ⟨l, ⟨page, hpage, rfl⟩, hwpage⟩ := hw
    simp only [pageWrites, List.mem_filterMap] at hwpage
    obtain ⟨o, ho, hsome⟩ := hwpage
    by_cases hc : o.1 ≠ [] ∧ 0 < o.2.length
    · rw [if_pos hc] at hsome
      cases hsome
      exact hc.2
    · rw [if_neg hc] at hsome
      cases hsome

/-- Witness for C9 at a concrete one-page listing with one positive-size
object. -/
theorem c9_zero_size_objects_skipped_witness :
    0 < (([5] : List Nat)).length :=
  (c9_zero_size_objects_skipped ['p'] [[(['p', '/', 'a'], [5])]] (Stats.reset 0)).2.2.2
    (['a'], [5]) (by decide)

/-- Key composition associates: prefixing an entry name and then a
relative path below it equals prefixing the joined relative path, for
non-empty names. -/
theorem entryKey_assoc (p n x : Str) (hn : n ≠ []) :
    entryKey (entryKey p n) x = entryKey p (n ++ '/' :: x) := by
  by_cases hp : p = []
  · subst hp
    simp [entryKey, hn]
  · have hpn : entryKey p n ≠ [] := by
      simp only [entryKey, if_neg hp]
      cases p with
      | nil => exact absurd rfl hp
      | cons a as => simp
    simp [entryKey, hp, hpn]

mutual
/-- The objects uploaded for one entry are exactly the entry's files, each
keyed by the destination prefix joined with the file's relative path. -/
theorem FTree.uploadEntry_eq (t : FTree) (p : Str) (hw : t.wfNames = true) :
    t.uploadEntry p = t.entryFiles.map (fun q => (entryKey p q.1, q.2)) := by
  cases t with
  | file n c => simp [FTree.uploadEntry, FTree.entryFiles]
  | dir n cs =>
    simp only [FTree.wfNames, Bool.and_eq_true] at hw
    have hn : n ≠ [] := by
      have := hw.1.1
      simp only [Bool.not_eq_true'] at this
      exact fun hcontra => by simp [hcontra] at this
    rw [FTree.uploadEntry, FTree.entryFiles, Forest.uploadObjects_eq cs (entryKey p n) hw.2,
      List.map_map]
    apply List.map_congr_left
    intro q _
    simp only [Function.comp_apply]
    rw [entryKey_assoc p n q.1 hn]
/-- The objects uploaded by `uploadDirectory` over a directory are exactly
the directory's files, keyed by the destination prefix joined with their
relative paths. -/
theorem Forest.uploadObjects_eq (f : Forest) (p : Str) (hw : f.wfNames = true) :
    f.uploadObjects p = f.fileEntries.map (fun q => (entryKey p q.1, q.2)) := by
  cases f with
  | nil => rfl
  | cons t r =>
    simp only [Forest.wfNames, Bool.and_eq_true] at hw
    rw [Forest.uploadObjects, Forest.fileEntries, List.map_append,
      FTree.uploadEntry_eq t p hw.1, Forest.uploadObjects_eq r p hw.2]
end

/-- A list is a computed leading segment of itself followed by anything. -/
theorem isPre_append (p t : Str) : p.isPrefixOf (p ++ t) = true := by
  induction p with
  | nil => simp [List.isPrefixOf]
  | cons a as ih => simp [List.isPrefixOf, ih]

/-- Unfolding of the transfer-pass write computation over one listed
object. -/
theorem pageWrites_cons (s3Pre : Str) (o : S3Obj) (rest : List S3Obj) :
    pageWrites s3Pre (o :: rest)
      = if o.1 ≠ [] ∧ 0 < o.2.length
        then (cleanRelPath s3Pre o.1, o.2) :: pageWrites s3Pre rest
        else pageWrites s3Pre rest := by
  simp only [pageWrites, List.filterMap_cons]
  by_cases h : o.1 ≠ [] ∧ 0 < o.2.length
  · rw [if_pos h, if_pos h]
  · rw [if_neg h, if_neg h]

/-- Downloading a page whose keys are all of the form `prefix ++ '/' ++
relativePath` with non-empty contents writes back exactly the
`(relativePath, content)` pairs. -/
theorem pageWrites_keyed (p : Str) (hp : p ≠ []) (L : List (Str × List Nat))
    (hc : ∀ q ∈ L, q.2 ≠ []) :
    pageWrites p (L.map (fun q => (p ++ '/' :: q.1, q.2))) = L := by
  induction L with
  | nil => rfl
  | cons q rest ih =>
    have hq2 : q.2 ≠ [] := hc q (by simp)
    have hrest := ih (fun x hx => hc x (by simp [hx]))
    rw [List.map_cons, pageWrites_cons]
    have hcond : ((p ++ '/' :: q.1 : Str) ≠ [] ∧ 0 < q.2.length) := by
      constructor
      · cases p with
        | nil => exact absurd rfl hp
        | cons a as => simp
      · cases hq : q.2 with
        | nil => exact absurd hq hq2
        | cons b bs => simp [hq]
    rw [if_pos hcond]
    have hclean : cleanRelPath p (p ++ '/' :: q.1) = q.1 := by
      simp [cleanRelPath, List.drop_left]
    rw [hclean, hrest]

/-- Listing the prefix over a store whose keys all extend the prefix
returns the whole store. -/
theorem listPre_keyed (p : Str) (L : List (Str × List Nat)) :
    listPre (L.map (fun q => (p ++ '/' :: q.1, q.2))) p
      = L.map (fun q => (p ++ '/' :: q.1, q.2)) := by
  apply List.filter_eq_self.mpr
  intro o ho
  simp only [List.mem_map] at ho
  obtain ⟨q, _, rfl⟩ := ho
  exact isPre_append p ('/' :: q.1)

/-- Tree holding one empty file named `a`. -/
def c4Tree : Forest := .cons (.file ['a'] []) .nil

/-- C4 counterexample: the claim states that upload followed by download
reproduces every file of the tree.  For the tree with the single
zero-byte file `a`, uploading to prefix `id` stores the object, but the
download pass skips every zero-size object (`obj.Size && obj.Size > 0`),
so the reproduced tree is empty although the source has one file. -/
theorem c4_counterexample :
    downloadWrites ['i', 'd'] [listPre (c4Tree.uploadObjects ['i', 'd']) ['i', 'd']] = [] ∧
    c4Tree.fileEntries = [(['a'], [])] :=
  ⟨rfl, rfl⟩

/-- C4 amended: for every directory tree with well-formed entry names and
no zero-byte files, uploading to a non-empty object-storage prefix and
downloading that prefix into an empty directory reproduces exactly the
tree's files — the same count, the same relative paths, byte-for-byte
identical contents (zero-byte files are lost by the download pass). -/
theorem c4_roundtrip_amended (f : Forest) (p : Str) (hp : p ≠ [])
    (hw : f.wfNames = true) (hc : ∀ q ∈ f.fileEntries, q.2 ≠ []) :
    downloadWrites p [listPre (f.uploadObjects p) p] = f.fileEntries := by
  have he : f.uploadObjects p = f.fileEntries.map (fun q => (p ++ '/' :: q.1, q.2)) := by
    rw [Forest.uploadObjects_eq f p hw]
    apply List.map_congr_left
    intro q _
    simp [entryKey, hp]
  rw [he, listPre_keyed]
  simp only [downloadWrites, List.map_cons, List.map_nil, List.flatten_cons,
    List.flatten_nil, List.append_nil]
  exact pageWrites_keyed p hp f.fileEntries hc

/-- Tree with a top-level file and a nested file, all contents
non-empty. -/
def c4WTree : Forest :=
  .cons (.file ['a'] [7]) (.cons (.dir ['s'] (.cons (.file ['b'] [1, 2]) .nil)) .nil)

/-- Witness for the amended C4 theorem at a concrete nested tree. -/
theorem c4_roundtrip_amended_witness :
    downloadWrites ['u'] [listPre (c4WTree.uploadObjects ['u']) ['u']] = c4WTree.fileEntries :=
  c4_roundtrip_amended c4WTree ['u'] (by decide) (by decide) (by decide)

/-- Leading segments compose. -/
theorem hasPre_trans {a b c : Str} (h1 : hasPre a b) (h2 : hasPre b c) : hasPre a c := by
  obtain ⟨t1, rfl⟩ := h1
  obtain ⟨t2, rfl⟩ := h2
  exact ⟨t1 ++ t2, List.append_assoc a t1 t2⟩

/-- Joining anything to the right of a non-empty key prefix keeps that
prefix as a leading segment. -/
theorem hasPre_posixJoin (pre x : Str) (hp : pre ≠ []) : hasPre pre (posixJoin pre x) := by
  by_cases hx : x = []
  · refine ⟨[], ?_⟩
    simp [posixJoin, hp, hx]
  · refine ⟨'/' :: x, ?_⟩
    simp [posixJoin, hp, hx]

/-- Character expansion of the publisher's namespace marker. -/
theorem deploymentsChars :
    ("deployments/".toList : Str)
      = ['d', 'e', 'p', 'l', 'o', 'y', 'm', 'e', 'n', 't', 's', '/'] := rfl

/-- Character expansion of the content server's namespace marker. -/
theorem distChars : ("dist/".toList : Str) = ['d', 'i', 's', 't', '/'] := rfl

/-- The deployment prefix chosen by `uploadDistFolder` always begins with
the `deployments/` namespace. -/
theorem distFolderPre_hasPre (id dep : Str) :
    hasPre "deployments/".toList (distFolderPre id dep) := by
  by_cases hd : dep = []
  · exact ⟨id, by simp [distFolderPre, hd]⟩
  · exact ⟨id ++ '/' :: dep, by simp [distFolderPre, hd]⟩

/-- The deployment prefix is never the empty key. -/
theorem distFolderPre_ne_nil (id dep : Str) : distFolderPre id dep ≠ [] := by
  intro hcontra
  by_cases hd : dep = []
  · rw [distFolderPre, if_pos hd, deploymentsChars] at hcontra
    simp at hcontra
  · rw [distFolderPre, if_neg hd, deploymentsChars] at hcontra
    simp at hcontra

mutual
/-- Every key the publisher produces for one entry begins with the
destination prefix. -/
theorem FTree.distEntryKeys_hasPre (t : FTree) (pre rel : Str) (hp : pre ≠ [])
    (k : Str) (hk : k ∈ t.distEntryKeys pre rel) : hasPre pre k := by
  cases t with
  | file n c =>
    simp only [FTree.distEntryKeys, List.mem_singleton] at hk
    subst hk
    exact hasPre_posixJoin pre _ hp
  | dir n cs =>
    exact Forest.distKeys_hasPre cs pre (pathJoin rel n) hp k hk
/-- Every key the publisher produces over a directory begins with the
destination prefix. -/
theorem Forest.distKeys_hasPre (f : Forest) (pre rel : Str) (hp : pre ≠ [])
    (k : Str) (hk : k ∈ f.distKeys pre rel) : hasPre pre k := by
  cases f with
  | nil => simp [Forest.distKeys] at hk
  | cons t r =>
    simp only [Forest.distKeys, List.mem_append] at hk
    cases hk with
    | inl h => exact FTree.distEntryKeys_hasPre t pre rel hp k h
    | inr h => exact Forest.distKeys_hasPre r pre rel hp k h
end

/-- C10: every object key written by `uploadDistFolder` begins with
`deployments/`; every object key fetched by `serveFileController` begins
with `dist/`; and no key can begin with both, so no published object is
ever the object the content server fetches. -/
theorem c10_published_served_disjoint :
    (∀ (id dep : Str) (f : Forest) (k : Str), k ∈ uploadDistFolderKeys id dep f →
      hasPre "deployments/".toList k) ∧
    (∀ (id filePath : Str), hasPre "dist/".toList (serveKey id filePath)) ∧
    (∀ k : Str, hasPre "deployments/".toList k → hasPre "dist/".toList k → False) := by
  refine ⟨?_, ?_, ?_⟩
  · intro id dep f k hk
    exact hasPre_trans (distFolderPre_hasPre id dep)
      (Forest.distKeys_hasPre f (distFolderPre id dep) []
        (distFolderPre_ne_nil id dep) k hk)
  · intro id filePath
    exact ⟨id ++ filePath, by simp [serveKey]⟩
  · rintro k ⟨t1, rfl⟩ ⟨t2, h⟩
    rw [deploymentsChars, distChars] at h
    simp only [List.cons_append] at h
    injection h with _ h1
    injection h1 with h2 _
    exact absurd h2 (by decide)

/-- Witness for C10 at a concrete published key. -/
theorem c10_published_served_disjoint_witness :
    hasPre "deployments/".toList
      (posixJoin (distFolderPre ['x'] ['t']) (pathJoin [] ['a'])) :=
  c10_published_served_disjoint.1 ['x'] ['t'] (.cons (.file ['a'] [1]) .nil)
    (posixJoin (distFolderPre ['x'] ['t']) (pathJoin [] ['a'])) (by decide)

/-- Transfer oracle that fails exactly on the file named `b`. -/
def c3Outcome : FTree → Except String Unit
  | .file n _ => if n = ['b'] then .error "network reset" else .ok ()
  | .dir _ _ => .ok ()

/-- The failing file of the C3 scenario. -/
def badFile : FTree := .file ['b'] [1]

/-- A later file of the same chain in the C3 scenario. -/
def goodFile : FTree := .file ['g'] [1]

/-- C3 counterexample: the claim states that after a single file-transfer
failure no further new transfers are admitted into the concurrency pool.
But `processEntry`'s `finally` block awaits the rest of the chain even
when the transfer threw: with the chain `[badFile, goodFile]` whose first
transfer fails, the second entry is still attempted (it appears in the
attempted list after the failing one) before the chain finally rejects. -/
theorem c3_counterexample :
    c3Outcome badFile = .error "network reset" ∧
    c3Outcome goodFile = .ok () ∧
    runChain c3Outcome [badFile, goodFile]
      = ([badFile, goodFile], .error "network reset") :=
  ⟨rfl, rfl, rfl⟩

/-- The error a chain ultimately rejects with: the outcome of the last
failing entry, or success when no entry fails (specification-side
description, written as a left fold that keeps replacing the accumulator
with each failure encountered). -/
def lastFailure (outcome : FTree → Except String Unit) (es : List FTree) :
    Except String Unit :=
  es.foldl (fun acc e => if isErr (outcome e) then outcome e else acc) (.ok ())

/-- The failure-replacing fold over a chain equals its `runChain` result
when that result is an error, and the initial accumulator otherwise. -/
theorem runChain_foldl (outcome : FTree → Except String Unit) (es : List FTree)
    (init : Except String Unit) :
    es.foldl (fun acc e => if isErr (outcome e) then outcome e else acc) init
      = match (runChain outcome es).2 with
        | .error m => .error m
        | .ok _ => init := by
  induction es generalizing init with
  | nil => rfl
  | cons e rest ih =>
    rw [List.foldl_cons, ih]
    cases hr : (runChain outcome rest).2 with
    | error m => simp [runChain, hr]
    | ok u =>
      cases he : outcome e with
      | error m => simp [runChain, hr, he, isErr]
      | ok v => simp [runChain, hr, he, isErr]

/-- C3 amended: a single file-transfer failure makes the sync call fail
as a whole — the chain's result is an error exactly when some entry's
transfer failed — but the failure is not fail-fast within the chain:
every entry is still attempted (the `finally` block admits the remaining
transfers), and the rejection carries the raw underlying error of the
last failing entry; the failing path is identified only in the log, not
in the propagated error value. -/
theorem c3_chain_amended (outcome : FTree → Except String Unit) (es : List FTree) :
    (runChain outcome es).1 = es ∧
    (runChain outcome es).2 = lastFailure outcome es ∧
    isErr (runChain outcome es).2 = es.any (fun e => isErr (outcome e)) := by
  refine ⟨?_, ?_, ?_⟩
  · induction es with
    | nil => rfl
    | cons e rest ih => simp [runChain, ih]
  · rw [lastFailure, runChain_foldl]
    cases hr : (runChain outcome es).2 with
    | error m => rfl
    | ok u => rfl
  · induction es with
    | nil => rfl
    | cons e rest ih =>
      cases hr : (runChain outcome rest).2 with
      | error m =>
        have h2 : rest.any (fun e => isErr (outcome e)) = true := by
          rw [← ih, hr]
          rfl
        simp only [runChain, hr, List.any_cons, h2, Bool.or_true]
        rfl
      | ok u =>
        have h2 : rest.any (fun e => isErr (outcome e)) = false := by
          rw [← ih, hr]
          rfl
        simp [runChain, hr, List.any_cons, h2]

/-- Whether every entry of a pending list is a plain file. -/
def restAllFiles (l : List FTree) : Bool := l.all FTree.isFile

/-- Whether a chain's whole remaining work is plain files (a flat chain
never enters a recursive `uploadDirectory`). -/
def ChainSt.flat : ChainSt → Bool
  | .fin => true
  | .pend e r => e.isFile && restAllFiles r
  | .xfer r => restAllFiles r
  | .sub _ _ => false

/-- Whether every chain of an `uploadDirectory` state is flat. -/
def SyncSt.flat : SyncSt → Bool
  | .mk a b c d e => a.flat && b.flat && c.flat && d.flat && e.flat

/-- Chain assignment only redistributes the directory's entries. -/
theorem mem_chainEntries {entries : List FTree} {i : Nat} {e : FTree}
    (h : e ∈ chainEntries entries i) : e ∈ entries := by
  simp only [chainEntries, List.mem_map, List.mem_filter] at h
  obtain ⟨q, ⟨hq, _⟩, rfl⟩ := h
  exact List.snd_mem_of_mem_enum hq

/-- A chain over a list of plain files is flat. -/
theorem chainFrom_flat {l : List FTree} (h : restAllFiles l = true) :
    (chainFrom l).flat = true := by
  cases l with
  | nil => rfl
  | cons e r => simpa [chainFrom, ChainSt.flat, restAllFiles] using h

/-- Starting `uploadDirectory` over plain files yields a flat state. -/
theorem initSync_flat {entries : List FTree}
    (h : ∀ e ∈ entries, e.isFile = true) : (initSync entries).flat = true := by
  have hall : ∀ i, restAllFiles (chainEntries entries i) = true := by
    intro i
    apply List.all_eq_true.mpr
    intro e he
    exact h e (mem_chainEntries he)
  simp [initSync, SyncSt.flat, chainFrom_flat (hall 0), chainFrom_flat (hall 1),
    chainFrom_flat (hall 2), chainFrom_flat (hall 3), chainFrom_flat (hall 4)]

/-- A step of a flat chain yields a flat chain. -/
theorem chainStep_preserves_flat {c c' : ChainSt} (h : c.flat = true)
    (hs : ChainStep c c') : c'.flat = true := by
  cases hs with
  | startFile n cnt rest =>
    simpa [ChainSt.flat, FTree.isFile] using h
  | startDir n cs rest =>
    simp [ChainSt.flat, FTree.isFile] at h
  | finishFile rest =>
    simp only [ChainSt.flat] at h
    exact chainFrom_flat h
  | subStep s s' rest hss => simp [ChainSt.flat] at h
  | subFin s rest hfin => simp [ChainSt.flat] at h

/-- A step of a flat `uploadDirectory` state yields a flat state. -/
theorem syncStep_preserves_flat {s s' : SyncSt} (h : s.flat = true)
    (hs : SyncStep s s') : s'.flat = true := by
  cases hs with
  | at0 hstep =>
    simp only [SyncSt.flat, Bool.and_eq_true] at h ⊢
    exact ⟨⟨⟨⟨chainStep_preserves_flat h.1.1.1.1 hstep, h.1.1.1.2⟩, h.1.1.2⟩, h.1.2⟩, h.2⟩
  | at1 hstep =>
    simp only [SyncSt.flat, Bool.and_eq_true] at h ⊢
    exact ⟨⟨⟨⟨h.1.1.1.1, chainStep_preserves_flat h.1.1.1.2 hstep⟩, h.1.1.2⟩, h.1.2⟩, h.2⟩
  | at2 hstep =>
    simp only [SyncSt.flat, Bool.and_eq_true] at h ⊢
    exact ⟨⟨⟨⟨h.1.1.1.1, h.1.1.1.2⟩, chainStep_preserves_flat h.1.1.2 hstep⟩, h.1.2⟩, h.2⟩
  | at3 hstep =>
    simp only [SyncSt.flat, Bool.and_eq_true] at h ⊢
    exact ⟨⟨⟨⟨h.1.1.1.1, h.1.1.1.2⟩, h.1.1.2⟩, chainStep_preserves_flat h.1.2 hstep⟩, h.2⟩
  | at4 hstep =>
    simp only [SyncSt.flat, Bool.and_eq_true] at h ⊢
    exact ⟨⟨⟨⟨h.1.1.1.1, h.1.1.1.2⟩, h.1.1.2⟩, h.1.2⟩, chainStep_preserves_flat h.2 hstep⟩

/-- A flat chain has at most one transfer in flight. -/
theorem chain_flat_inFlight {c : ChainSt} (h : c.flat = true) : c.inFlight ≤ 1 := by
  cases c with
  | fin => simp [ChainSt.inFlight]
  | pend e r => simp [ChainSt.inFlight]
  | xfer r => simp [ChainSt.inFlight]
  | sub s r => simp [ChainSt.flat] at h

/-- A flat `uploadDirectory` state has at most five transfers in
flight. -/
theorem sync_flat_inFlight {s : SyncSt} (h : s.flat = true) : s.inFlight ≤ 5 := by
  cases s with
  | mk a b c d e =>
    simp only [SyncSt.flat, Bool.and_eq_true] at h
    have ha := chain_flat_inFlight h.1.1.1.1
    have hb := chain_flat_inFlight h.1.1.1.2
    have hcx := chain_flat_inFlight h.1.1.2
    have hd := chain_flat_inFlight h.1.2
    have he := chain_flat_inFlight h.2
    simp only [SyncSt.inFlight]
    omega

/-- C2 amended: for an upload-direction sync over a flat directory (every
entry a plain file), no reachable state of the engine ever has more than
5 file transfers in flight — the bound holds per directory level, each
`uploadDirectory` invocation running at most 5 chains with at most one
transfer each.  (Nested directories break the global bound, and the
download direction starts every listed object eagerly; see the
counterexample.) -/
theorem c2_flat_upload_bound (entries : List FTree)
    (hf : ∀ e ∈ entries, e.isFile = true) (s : SyncSt)
    (hr : SyncReach (initSync entries) s) : s.inFlight ≤ 5 := by
  have hflat : s.flat = true := by
    induction hr with
    | refl => exact initSync_flat hf
    | tail hsteps hstep ih => exact syncStep_preserves_flat ih hstep
  exact sync_flat_inFlight hflat

/-- Witness for the amended C2 theorem at a concrete one-file directory. -/
theorem c2_flat_upload_bound_witness :
    (initSync [FTree.file ['a'] [1]]).inFlight ≤ 5 :=
  c2_flat_upload_bound [FTree.file ['a'] [1]] (by decide)
    (initSync [FTree.file ['a'] [1]]) Relation.ReflTransGen.refl

/-- Five plain files, the contents of the nested directory of the C2
counterexample. -/
def fiveFiles : Forest :=
  .cons (.file ['1'] [1]) (.cons (.file ['2'] [1]) (.cons (.file ['3'] [1])
    (.cons (.file ['4'] [1]) (.cons (.file ['5'] [1]) .nil))))

/-- Directory entries of the C2 counterexample: one file next to one
subdirectory of five files. -/
def c2Entries : List FTree := [.file ['a'] [1], .dir ['d'] fiveFiles]

/-- Inner `uploadDirectory` state with all five chains transferring. -/
def c2Inner : SyncSt := .mk (.xfer []) (.xfer []) (.xfer []) (.xfer []) (.xfer [])

/-- Reachable state of the C2 counterexample: the top-level file transfer
plus the five transfers of the nested invocation, all in flight. -/
def c2Bad : SyncSt := .mk (.xfer []) (.sub c2Inner []) .fin .fin .fin

/-- C2 counterexample: the claim states that no sync call ever has more
than 5 transfers in flight globally.  But the upload engine bounds
concurrency per directory level: a recursive `uploadDirectory` for a
subdirectory occupies one slot of the parent pool while running its own
pool of 5.  Over the tree with one top-level file and one subdirectory of
five files, the state with 6 simultaneous transfers is reachable. -/
theorem c2_counterexample :
    SyncReach (initSync c2Entries) c2Bad ∧ 5 < c2Bad.inFlight := by
  constructor
  · have h0 : initSync c2Entries
        = SyncSt.mk (.pend (.file ['a'] [1]) []) (.pend (.dir ['d'] fiveFiles) [])
            .fin .fin .fin := rfl
    rw [SyncReach, h0]
    refine Relation.ReflTransGen.head
      (SyncStep.at0 (ChainStep.startFile ['a'] [1] [])) ?_
    refine Relation.ReflTransGen.head
      (SyncStep.at1 (ChainStep.startDir ['d'] fiveFiles [])) ?_
    have h1 : initSync fiveFiles.toList
        = SyncSt.mk (.pend (.file ['1'] [1]) []) (.pend (.file ['2'] [1]) [])
            (.pend (.file ['3'] [1]) []) (.pend (.file ['4'] [1]) [])
            (.pend (.file ['5'] [1]) []) := rfl
    rw [h1]
    refine Relation.ReflTransGen.head
      (SyncStep.at1 (ChainStep.subStep _ _ []
        (SyncStep.at0 (ChainStep.startFile ['1'] [1] [])))) ?_
    refine Relation.ReflTransGen.head
      (SyncStep.at1 (ChainStep.subStep _ _ []
        (SyncStep.at1 (ChainStep.startFile ['2'] [1] [])))) ?_
    refine Relation.ReflTransGen.head
      (SyncStep.at1 (ChainStep.subStep _ _ []
        (SyncStep.at2 (ChainStep.startFile ['3'] [1] [])))) ?_
    refine Relation.ReflTransGen.head
      (SyncStep.at1 (ChainStep.subStep _ _ []
        (SyncStep.at3 (ChainStep.startFile ['4'] [1] [])))) ?_
    refine Relation.ReflTransGen.head
      (SyncStep.at1 (ChainStep.subStep _ _ []
        (SyncStep.at4 (ChainStep.startFile ['5'] [1] [])))) ?_
    exact Relation.ReflTransGen.refl
  · decide
